import Mathlib

/-!
Shallow embedding of `src/main.py` (a small SQLite time-series utility).

Modelling conventions:

* A wall-clock instant (Python `datetime`) is identified with its POSIX
  timestamp in seconds, modelled as a rational number `ℚ` (Python datetimes
  have microsecond resolution, so every value is rational; the arithmetic the
  program performs on them — adding whole seconds, subtracting, dividing a
  whole-second duration by 3 — is exact in `ℚ`).
* Python's `int(x)` on a nonnegative number truncates toward zero; `pyInt`
  models it on all of `ℚ`.
* The `points` table is modelled as a `List` of stored rows in rowid
  (insertion) order: SQLite assigns increasing rowids to rows inserted by one
  `session.add_all` + `commit`, and a `SELECT` without `ORDER BY` on this
  table scans in rowid order.
* `Timestamp.process_bind_param` is applied by the ORM layer to every value
  bound against the `time` column — both to the `time` attribute of an
  inserted `Point` and to the two endpoints of `Point.time.between(lo, hi)`.
* `query`'s Python code dereferences `last.time` when the table is empty and
  `first`/`last` are `None`; the embedding returns `Except.error` for that
  `AttributeError` and otherwise packages every value the function computes
  and logs.
-/

namespace SqliteTs

/-- Python `int(x)`: truncation toward zero (floor for nonnegative `x`,
ceiling for negative `x`). -/
def pyInt (q : ℚ) : ℤ := if 0 ≤ q then ⌊q⌋ else ⌈q⌉

/-- `Timestamp.process_bind_param` (src/main.py lines 22-23): a datetime
value bound against the `time` column becomes `int(value.timestamp())`. -/
def process_bind_param (value : ℚ) : ℤ := pyInt value

/-- `Timestamp.process_result_value` (src/main.py lines 25-26): an integer
read from the `time` column becomes `datetime.fromtimestamp(value, tz=utc)`,
i.e. the instant `value` seconds after the epoch. -/
def process_result_value (value : ℤ) : ℚ := (value : ℚ)

/-- One row of the `points` table as stored on disk: `time` is an integer
(seconds since epoch, the result of bind processing), `temperature` a float
column (its values here are exactly representable, so we use `ℚ`).  The
`id` primary key is implicit in the row's position in the store list. -/
structure StoredPoint where
  time : ℤ
  temperature : ℚ
deriving Repr, DecidableEq

/-- The `points` table: rows in rowid (insertion) order. -/
abbrev Store := List StoredPoint

/-- A `Point` ORM object as constructed in Python, before bind processing:
`time` is a datetime (rational POSIX seconds), `temperature` a float. -/
structure PyPoint where
  time : ℚ
  temperature : ℚ
deriving Repr, DecidableEq

/-- Persisting one `Point`: the `time` attribute passes through
`process_bind_param`, the `temperature` float is stored as is. -/
def bindPoint (p : PyPoint) : StoredPoint :=
  { time := process_bind_param p.time, temperature := p.temperature }

/-- The batch built by `generate` (src/main.py lines 47-50): for
`t` in `range(n_points)`, a `Point` with `temperature=20.5` and
`time = start_time + timedelta(seconds=t)`, as stored after bind
processing. -/
def genPoints (nPoints : ℕ) (startTime : ℚ) : List StoredPoint :=
  (List.range nPoints).map
    (fun t : ℕ => bindPoint { time := startTime + (t : ℚ), temperature := 20.5 })

/-- `generate(session, n_points)` (src/main.py lines 45-56): builds the
batch and commits it with `session.add_all`, appending the rows to the
table in batch order.  `startTime` is the wall clock at invocation start. -/
def generate (st : Store) (nPoints : ℕ) (startTime : ℚ) : Store :=
  st ++ genPoints nPoints startTime

/-- `session.query(Point).first()` (src/main.py line 60): a `SELECT`
with `LIMIT 1` and no `ORDER BY`, which returns the first row in rowid
(insertion) order — `None` when the table is empty. -/
def queryFirst (st : Store) : Option StoredPoint := st.head?

/-- `session.query(Point).order_by(Point.time.desc()).first()`
(src/main.py line 61): a row whose `time` is maximal (the earliest such
row in rowid order, a deterministic tie-break). -/
def queryLast : Store → Option StoredPoint
  | [] => none
  | p :: rest =>
    match queryLast rest with
    | none => some p
    | some q => if q.time ≤ p.time then some p else some q

/-- The SQL predicate `Point.time.between(lo, hi)` with datetime endpoints
(src/main.py lines 69-72): the ORM bind-processes both endpoints through
`process_bind_param`, and SQL `BETWEEN` is inclusive at both ends. -/
def betweenPred (lo hi : ℚ) (p : StoredPoint) : Bool :=
  decide (process_bind_param lo ≤ p.time ∧ p.time ≤ process_bind_param hi)

/-- `session.query(Point).filter(Point.time.between(lo, hi))` followed by
`.count()` (src/main.py lines 68-75): the number of rows passing the
bind-processed inclusive range predicate. -/
def countInRange (st : Store) (lo hi : ℚ) : ℕ :=
  (st.filter (betweenPred lo hi)).length

/-- Modelled from the spec: the reference linear scan of §8
("Range query correctness"), counting records whose `time` satisfies
`lo ≤ time ≤ hi` with the comparison taken exactly, at the full resolution
of the bounds. -/
def countInRangeSpec (st : Store) (lo hi : ℚ) : ℕ :=
  (st.filter (fun p => decide (lo ≤ (p.time : ℚ) ∧ (p.time : ℚ) ≤ hi))).length

/-- The `AttributeError` raised by `last.time` on line 64 of src/main.py
when the table is empty and `first`/`last` are `None`. -/
inductive QueryError where
  | emptyStore
deriving Repr, DecidableEq

/-- Everything `query` (src/main.py lines 59-76) computes and logs:
the first and last rows, the duration in seconds, the window endpoints
`lo`/`hi` passed to `between`, the total row count, the selection count,
and the first selected row. -/
structure QueryResult where
  first : StoredPoint
  last : StoredPoint
  duration : ℚ
  lo : ℚ
  hi : ℚ
  count : ℕ
  selectionCount : ℕ
  selectionFirst : Option StoredPoint
deriving Repr, DecidableEq

/-- `query(session)` (src/main.py lines 59-76).  `first` is the first row in
rowid order, `last` a maximal-`time` row; `duration` is
`(last.time - first.time).total_seconds()` on the datetimes read back
through `process_result_value`; the selection filters on
`time BETWEEN first.time + duration/3 AND last.time - duration/3` (both
endpoints bind-processed); `selection.first()` is the first matching row in
rowid order.  On an empty table `last.time` raises. -/
def query (st : Store) : Except QueryError QueryResult :=
  match queryFirst st, queryLast st with
  | some f, some l =>
    let firstTime : ℚ := process_result_value f.time
    let lastTime : ℚ := process_result_value l.time
    let duration : ℚ := lastTime - firstTime
    let lo : ℚ := firstTime + duration / 3
    let hi : ℚ := lastTime - duration / 3
    let selection : List StoredPoint := st.filter (betweenPred lo hi)
    Except.ok
      { first := f, last := l, duration := duration, lo := lo, hi := hi,
        count := st.length, selectionCount := selection.length,
        selectionFirst := selection.head? }
  | _, _ => Except.error QueryError.emptyStore

/-! ### Helper lemmas -/

theorem pyInt_of_nonneg {q : ℚ} (h : 0 ≤ q) : pyInt q = ⌊q⌋ := if_pos h

theorem pyInt_intCast (z : ℤ) : pyInt (z : ℚ) = z := by
  unfold pyInt
  rcases le_or_lt 0 (z : ℚ) with h | h
  · rw [if_pos h, Int.floor_intCast]
  · rw [if_neg (not_le.mpr h), Int.ceil_intCast]

theorem pyInt_add_nat {q : ℚ} (h : 0 ≤ q) (k : ℕ) : pyInt (q + k) = pyInt q + k := by
  have h2 : (0 : ℚ) ≤ q + k := by positivity
  rw [pyInt_of_nonneg h, pyInt_of_nonneg h2, Int.floor_add_nat]

theorem genPoints_eq {t0 : ℚ} (h : 0 ≤ t0) (n : ℕ) :
    genPoints n t0 = (List.range n).map
      (fun k => { time := pyInt t0 + k, temperature := 20.5 }) := by
  unfold genPoints bindPoint process_bind_param
  exact List.map_congr_left fun k _ => by rw [pyInt_add_nat h]

theorem queryLast_eq_none_iff (st : Store) : queryLast st = none ↔ st = [] := by
  cases st with
  | nil => simp [queryLast]
  | cons p rest =>
    simp only [queryLast]
    cases queryLast rest with
    | none => simp
    | some q =>
      rcases le_or_lt q.time p.time with h | h
      · simp [if_pos h]
      · simp [if_neg (not_le.mpr h)]

theorem queryLast_spec :
    ∀ (st : Store) (m : StoredPoint), queryLast st = some m →
      m ∈ st ∧ ∀ r ∈ st, r.time ≤ m.time := by
  intro st
  induction st with
  | nil => intro m hm; simp [queryLast] at hm
  | cons p rest ih =>
    intro m hm
    cases hq : queryLast rest with
    | none =>
      simp only [queryLast, hq] at hm
      have hrest : rest = [] := (queryLast_eq_none_iff rest).mp hq
      subst hrest
      simp only [Option.some.injEq] at hm
      subst hm
      simp
    | some q =>
      simp only [queryLast, hq] at hm
      rcases le_or_lt q.time p.time with hle | hlt
      · rw [if_pos hle] at hm
        simp only [Option.some.injEq] at hm
        subst hm
        refine ⟨List.mem_cons_self _ _, ?_⟩
        intro r hr
        rcases List.mem_cons.mp hr with h | h
        · exact h ▸ le_refl _
        · exact le_trans ((ih q hq).2 r h) hle
      · rw [if_neg (not_le.mpr hlt)] at hm
        simp only [Option.some.injEq] at hm
        subst hm
        refine ⟨List.mem_cons_of_mem _ (ih q hq).1, ?_⟩
        intro r hr
        rcases List.mem_cons.mp hr with h | h
        · exact h ▸ le_of_lt hlt
        · exact (ih q hq).2 r h

theorem queryLast_of_chain_lt :
    ∀ st : Store, st.Chain' (fun a b => a.time < b.time) →
      queryLast st = st.getLast? := by
  intro st
  induction st with
  | nil => intro _; rfl
  | cons p rest ih =>
    intro hc
    cases rest with
    | nil => rfl
    | cons r rest' =>
      have hpr : p.time < r.time := (List.chain'_cons.mp hc).1
      have hc' : (r :: rest').Chain' (fun a b => a.time < b.time) :=
        (List.chain'_cons.mp hc).2
      have htail : queryLast (r :: rest') = (r :: rest').getLast? := ih hc'
      obtain ⟨m, hm⟩ : ∃ m, queryLast (r :: rest') = some m := by
        cases h : queryLast (r :: rest') with
        | none => exact absurd ((queryLast_eq_none_iff _).mp h) (by simp)
        | some m => exact ⟨m, rfl⟩
      have hrm : r.time ≤ m.time := (queryLast_spec _ m hm).2 r (List.mem_cons_self _ _)
      have hred : queryLast (p :: r :: rest') =
          if m.time ≤ p.time then some p else some m := by
        rw [queryLast, hm]
      rw [hred, if_neg (not_le.mpr (lt_of_lt_of_le hpr hrm))]
      rw [hm] at htail
      rw [htail, List.getLast?_cons_cons]

theorem query_eq (st : Store) (f l : StoredPoint)
    (hf : queryFirst st = some f) (hl : queryLast st = some l) :
    query st = Except.ok
      { first := f, last := l,
        duration := (l.time : ℚ) - (f.time : ℚ),
        lo := (f.time : ℚ) + ((l.time : ℚ) - (f.time : ℚ)) / 3,
        hi := (l.time : ℚ) - ((l.time : ℚ) - (f.time : ℚ)) / 3,
        count := st.length,
        selectionCount := (st.filter (betweenPred
          ((f.time : ℚ) + ((l.time : ℚ) - (f.time : ℚ)) / 3)
          ((l.time : ℚ) - ((l.time : ℚ) - (f.time : ℚ)) / 3))).length,
        selectionFirst := (st.filter (betweenPred
          ((f.time : ℚ) + ((l.time : ℚ) - (f.time : ℚ)) / 3)
          ((l.time : ℚ) - ((l.time : ℚ) - (f.time : ℚ)) / 3))).head? } := by
  unfold query
  rw [hf, hl]
  rfl

theorem betweenPred_intCast (lo hi : ℤ) (p : StoredPoint) :
    betweenPred (lo : ℚ) (hi : ℚ) p = decide (lo ≤ p.time ∧ p.time ≤ hi) := by
  simp [betweenPred, process_bind_param, pyInt_intCast]

/-! ### Claim theorems -/

/-- Claim C4: for every prior store state and every `n ≥ 0` (here all of `ℕ`),
`generate` with `n` points leaves the store with exactly `n_before + n`
records, and `n = 0` is legal and leaves the store unchanged. -/
theorem generate_count_invariant (st : Store) (n : ℕ) (t0 : ℚ) :
    (generate st n t0).length = st.length + n ∧ generate st 0 t0 = st := by
  constructor
  · simp [generate, genPoints]
  · simp [generate, genPoints]

/-- Claim C9: on a store with zero records, `query` raises (the `None`
returned for `first`/`last` is dereferenced as `last.time` on line 64): it
never returns normally and reports no duration, count or selection. -/
theorem query_empty_store_errors (st : Store) (h : st.length = 0) :
    query st = Except.error QueryError.emptyStore := by
  have hnil : st = [] := List.length_eq_zero.mp h
  subst hnil
  rfl

/-- Witness for C9 at the empty store. -/
theorem query_empty_store_errors_witness :
    ([] : Store).length = 0 ∧ query [] = Except.error QueryError.emptyStore :=
  ⟨rfl, query_empty_store_errors [] rfl⟩

/-- Claim C10: for every timestamp at or after the epoch, encoding to integer
seconds and decoding back floors to the whole second at or below it: the
decoded value is `⌊t⌋`, is never later than `t`, and differs from `t` by
strictly less than one second. -/
theorem timestamp_encode_floors (t : ℚ) (h : 0 ≤ t) :
    process_result_value (process_bind_param t) = (⌊t⌋ : ℚ) ∧
    process_result_value (process_bind_param t) ≤ t ∧
    t - process_result_value (process_bind_param t) < 1 := by
  unfold process_result_value process_bind_param
  rw [pyInt_of_nonneg h]
  refine ⟨rfl, Int.floor_le t, ?_⟩
  have := Int.lt_floor_add_one t
  linarith

/-- Witness for C10 at `t = 7/2`. -/
theorem timestamp_encode_floors_witness :
    (0 : ℚ) ≤ 7 / 2 ∧
    (process_result_value (process_bind_param (7 / 2)) = (⌊(7 : ℚ) / 2⌋ : ℚ) ∧
     process_result_value (process_bind_param (7 / 2)) ≤ 7 / 2 ∧
     (7 : ℚ) / 2 - process_result_value (process_bind_param (7 / 2)) < 1) :=
  ⟨by norm_num, timestamp_encode_floors (7 / 2) (by norm_num)⟩

/-- Claim C6: for every inserted point with a whole-second `time`, reading it
back yields the same `time` (bind then result processing is the identity on
whole-second timestamps) and the same `temperature` value. -/
theorem point_roundtrip (p : PyPoint) (z : ℤ) (h : p.time = (z : ℚ)) :
    process_result_value (bindPoint p).time = p.time ∧
    (bindPoint p).temperature = p.temperature := by
  refine ⟨?_, rfl⟩
  simp [bindPoint, process_bind_param, process_result_value, h, pyInt_intCast]

/-- Witness for C6 at the point `time = 5`, `temperature = 20.5`. -/
theorem point_roundtrip_witness :
    (PyPoint.mk 5 20.5).time = ((5 : ℤ) : ℚ) ∧
    (process_result_value (bindPoint (PyPoint.mk 5 20.5)).time =
        (PyPoint.mk 5 20.5).time ∧
     (bindPoint (PyPoint.mk 5 20.5)).temperature = (PyPoint.mk 5 20.5).temperature) :=
  ⟨by norm_num, point_roundtrip (PyPoint.mk 5 20.5) 5 (by norm_num)⟩

/-- Claim C1 counterexample: `query`'s fetch of the first record
(`session.query(Point).first()`, line 60) has no `ORDER BY`, so it returns
the first row in insertion order; on a store whose rows are not in
nondecreasing time order it does not return the minimum-time record. -/
theorem queryFirst_not_min_time_counterexample :
    queryFirst [⟨5, 0⟩, ⟨3, 0⟩] = some ⟨5, 0⟩ ∧
    (⟨3, 0⟩ : StoredPoint) ∈ ([⟨5, 0⟩, ⟨3, 0⟩] : Store) ∧
    (⟨3, 0⟩ : StoredPoint).time < (⟨5, 0⟩ : StoredPoint).time :=
  ⟨rfl, by simp, by decide⟩

/-- Claim C1 (amended): the fetch of the first record returns the
earliest-inserted row, absent exactly when the store has zero records; when
the store's rows are pairwise nondecreasing in time — as every store built
by generator runs alone is — that row has the minimum time among all
records. -/
theorem queryFirst_head_min_time_of_sorted (st : Store)
    (hs : st.Pairwise (fun a b => a.time ≤ b.time)) :
    (queryFirst st = none ↔ st = []) ∧
    ∀ p, queryFirst st = some p → p ∈ st ∧ ∀ r ∈ st, p.time ≤ r.time := by
  constructor
  · cases st <;> simp [queryFirst]
  · intro p hp
    cases st with
    | nil => simp [queryFirst] at hp
    | cons a rest =>
      simp only [queryFirst, List.head?_cons, Option.some.injEq] at hp
      subst hp
      refine ⟨List.mem_cons_self _ _, ?_⟩
      intro r hr
      rcases List.mem_cons.mp hr with h | h
      · exact h ▸ le_refl _
      · exact (List.pairwise_cons.mp hs).1 r h

/-- Witness for C1 (amended) at the two-row time-sorted store. -/
theorem queryFirst_head_min_time_of_sorted_witness :
    (queryFirst [⟨1, 0⟩, ⟨2, 0⟩] = none ↔ ([⟨1, 0⟩, ⟨2, 0⟩] : Store) = []) ∧
    (∀ p, queryFirst [⟨1, 0⟩, ⟨2, 0⟩] = some p →
      p ∈ ([⟨1, 0⟩, ⟨2, 0⟩] : Store) ∧
      ∀ r ∈ ([⟨1, 0⟩, ⟨2, 0⟩] : Store), p.time ≤ r.time) :=
  queryFirst_head_min_time_of_sorted [⟨1, 0⟩, ⟨2, 0⟩] (by decide)

/-- Claim C7: the fetch of the last record (`order_by(Point.time.desc())`,
line 61) is absent exactly when the store is empty and otherwise returns a
record of maximum time; on a one-record store `query` returns that record as
both first and last, with duration exactly zero, window collapsed to its
time, and the record itself selected. -/
theorem queryLast_max_time_and_singleton (st : Store) :
    (queryLast st = none ↔ st = []) ∧
    (∀ m, queryLast st = some m → m ∈ st ∧ ∀ r ∈ st, r.time ≤ m.time) ∧
    (∀ q : StoredPoint, st = [q] →
      query st = Except.ok
        { first := q, last := q, duration := 0, lo := (q.time : ℚ),
          hi := (q.time : ℚ), count := 1, selectionCount := 1,
          selectionFirst := some q }) := by
  refine ⟨queryLast_eq_none_iff st, queryLast_spec st, ?_⟩
  intro q hq
  subst hq
  simp [query, queryFirst, queryLast, process_result_value, betweenPred,
    process_bind_param, pyInt_intCast, List.filter]

/-- Witness for C7 at the one-record store. -/
theorem queryLast_max_time_and_singleton_witness :
    ((⟨5, 1⟩ : StoredPoint) ∈ ([⟨5, 1⟩] : Store) ∧
      ∀ r ∈ ([⟨5, 1⟩] : Store), r.time ≤ (⟨5, 1⟩ : StoredPoint).time) ∧
    query [⟨5, 1⟩] = Except.ok
      { first := ⟨5, 1⟩, last := ⟨5, 1⟩, duration := 0, lo := ((5 : ℤ) : ℚ),
        hi := ((5 : ℤ) : ℚ), count := 1, selectionCount := 1,
        selectionFirst := some ⟨5, 1⟩ } :=
  ⟨(queryLast_max_time_and_singleton [⟨5, 1⟩]).2.1 ⟨5, 1⟩ rfl,
   (queryLast_max_time_and_singleton [⟨5, 1⟩]).2.2 ⟨5, 1⟩ rfl⟩

/-- Claim C5: the records of one `generate` call with `n ≥ 2`, started at a
post-epoch wall clock, have stored times `pyInt t0 + k` for `k = 0..n-1`:
already sorted by time, with consecutive differences of exactly 1 second,
and strictly increasing even after the lossy integer-second encoding. -/
theorem generate_time_spacing (n : ℕ) (t0 : ℚ) (hn : 2 ≤ n) (ht : 0 ≤ t0) :
    (genPoints n t0).map StoredPoint.time
        = (List.range n).map (fun k : ℕ => pyInt t0 + (k : ℤ)) ∧
    ((genPoints n t0).map StoredPoint.time).Chain' (fun a b => b = a + 1) ∧
    ((genPoints n t0).map StoredPoint.time).Pairwise (fun a b => a < b) := by
  have h1 : (genPoints n t0).map StoredPoint.time
      = (List.range n).map (fun k : ℕ => pyInt t0 + (k : ℤ)) := by
    rw [genPoints_eq ht, List.map_map]
    rfl
  have hc : ((genPoints n t0).map StoredPoint.time).Chain' (fun a b => b = a + 1) := by
    rw [h1, List.chain'_map]
    obtain ⟨m, rfl⟩ : ∃ m, n = m + 1 := ⟨n - 1, by omega⟩
    rw [List.chain'_range_succ]
    intro k _
    push_cast
    ring
  refine ⟨h1, hc, ?_⟩
  have hlt : ((genPoints n t0).map StoredPoint.time).Chain' (fun a b => a < b) :=
    hc.imp fun a b hab => by omega
  exact List.chain'_iff_pairwise.mp hlt

/-- Witness for C5 at `n = 2`, `t0 = 3/2`. -/
theorem generate_time_spacing_witness :
    2 ≤ 2 ∧ (0 : ℚ) ≤ 3 / 2 ∧
    ((genPoints 2 (3 / 2)).map StoredPoint.time
        = (List.range 2).map (fun k : ℕ => pyInt (3 / 2) + (k : ℤ)) ∧
      ((genPoints 2 (3 / 2)).map StoredPoint.time).Chain' (fun a b => b = a + 1) ∧
      ((genPoints 2 (3 / 2)).map StoredPoint.time).Pairwise (fun a b => a < b)) :=
  ⟨le_refl 2, by norm_num, generate_time_spacing 2 (3 / 2) (le_refl 2) (by norm_num)⟩

/-- Claim C2 counterexample: the ORM bind-processes the `between` endpoints
through `int(value.timestamp())`, so a fractional lower bound is truncated
down before the SQL comparison: with `lo = 9/2 ≤ hi = 11/2` the code counts
the record at time 4 although `9/2 ≤ 4` fails, so the count differs from the
exact linear-scan filter. -/
theorem countInRange_fractional_bounds_counterexample :
    ((9 : ℚ) / 2 ≤ 11 / 2) ∧
    countInRange [⟨4, 0⟩] (9 / 2) (11 / 2) = 1 ∧
    countInRangeSpec [⟨4, 0⟩] (9 / 2) (11 / 2) = 0 := by
  refine ⟨by norm_num, ?_, ?_⟩
  · have hlo : pyInt ((9 : ℚ) / 2) = 4 := by
      rw [pyInt_of_nonneg (by norm_num)]
      norm_num
    have hhi : pyInt ((11 : ℚ) / 2) = 5 := by
      rw [pyInt_of_nonneg (by norm_num)]
      norm_num
    simp [countInRange, betweenPred, process_bind_param, hlo, hhi, List.filter]
  · norm_num [countInRangeSpec, List.filter]

/-- Claim C2 (amended): for all whole-second bounds `lo ≤ hi` — bounds at
the store's own second granularity — the range selection count equals the
linear-scan count of records with `lo ≤ time ≤ hi`; fractional bounds are
first truncated to whole seconds by bind processing, which can widen the
interval below `lo` (and narrow nothing above `hi`). -/
theorem countInRange_eq_linear_scan_on_second_bounds (st : Store) (lo hi : ℤ)
    (_h : lo ≤ hi) :
    countInRange st (lo : ℚ) (hi : ℚ) = countInRangeSpec st (lo : ℚ) (hi : ℚ) := by
  unfold countInRange countInRangeSpec
  congr 1
  apply List.filter_congr
  intro p _
  rw [betweenPred_intCast]
  simp only [decide_eq_decide]
  exact and_congr Int.cast_le.symm Int.cast_le.symm

/-- Witness for C2 (amended) at whole-second bounds `4 ≤ 5`. -/
theorem countInRange_eq_linear_scan_on_second_bounds_witness :
    (4 : ℤ) ≤ 5 ∧
    countInRange [⟨4, 0⟩, ⟨6, 0⟩] ((4 : ℤ) : ℚ) ((5 : ℤ) : ℚ)
      = countInRangeSpec [⟨4, 0⟩, ⟨6, 0⟩] ((4 : ℤ) : ℚ) ((5 : ℤ) : ℚ) :=
  ⟨by decide, countInRange_eq_linear_scan_on_second_bounds [⟨4, 0⟩, ⟨6, 0⟩] 4 5 (by decide)⟩

/-- Claim C8 counterexample: with `lo = 59/10 > hi = 51/10` both endpoints
truncate to the same integer second 5, so the inclusive SQL `BETWEEN`
becomes `5 ≤ time ≤ 5` and the record at time 5 is counted: the count is 1,
not 0. -/
theorem countInRange_inverted_bounds_counterexample :
    ((51 : ℚ) / 10 < 59 / 10) ∧
    countInRange [⟨5, 0⟩] (59 / 10) (51 / 10) = 1 := by
  refine ⟨by norm_num, ?_⟩
  have hlo : pyInt ((59 : ℚ) / 10) = 5 := by
    rw [pyInt_of_nonneg (by norm_num)]
    norm_num
  have hhi : pyInt ((51 : ℚ) / 10) = 5 := by
    rw [pyInt_of_nonneg (by norm_num)]
    norm_num
  simp [countInRange, betweenPred, process_bind_param, hlo, hhi, List.filter]

/-- Claim C8 (amended): for every store and all bounds whose truncated
integer seconds are inverted (`pyInt hi < pyInt lo` — in particular all
whole-second bounds with `lo > hi`), the range count is 0 and no error is
signaled; inverted fractional bounds that truncate to the same second may
instead count the records at that second. -/
theorem countInRange_zero_of_floor_inverted (st : Store) (lo hi : ℚ)
    (h : pyInt hi < pyInt lo) :
    countInRange st lo hi = 0 := by
  unfold countInRange
  rw [List.length_eq_zero, List.filter_eq_nil_iff]
  intro p _
  simp only [betweenPred, process_bind_param, decide_eq_true_eq, not_and]
  omega

/-- Witness for C8 (amended) at whole-second bounds `lo = 7 > hi = 5`. -/
theorem countInRange_zero_of_floor_inverted_witness :
    pyInt (5 : ℚ) < pyInt (7 : ℚ) ∧ countInRange [⟨5, 0⟩] 7 5 = 0 :=
  ⟨by rw [pyInt_of_nonneg (by norm_num), pyInt_of_nonneg (by norm_num)]; norm_num,
   countInRange_zero_of_floor_inverted [⟨5, 0⟩] 7 5
     (by rw [pyInt_of_nonneg (by norm_num), pyInt_of_nonneg (by norm_num)]; norm_num)⟩

/-- Claim C3: on a store holding exactly the 10 records of one
`generate(n=10)` call started at a post-epoch wall clock, `query` computes
duration 9.0 seconds, window endpoints `lo = first.time + 3s` and
`hi = last.time - 3s`, a total count of 10 and a selection count of 4; the
selection is exactly the records at offsets 3, 4, 5, 6 from the first
record's time. -/
theorem generate_ten_query_scenario (t0 : ℚ) (h : 0 ≤ t0) :
    query (generate [] 10 t0) = Except.ok
      { first := ⟨pyInt t0, 20.5⟩, last := ⟨pyInt t0 + 9, 20.5⟩,
        duration := 9, lo := (pyInt t0 : ℚ) + 3, hi := (pyInt t0 : ℚ) + 6,
        count := 10, selectionCount := 4,
        selectionFirst := some ⟨pyInt t0 + 3, 20.5⟩ } ∧
    (generate [] 10 t0).filter
        (betweenPred ((pyInt t0 : ℚ) + 3) ((pyInt t0 : ℚ) + 6))
      = [⟨pyInt t0 + 3, 20.5⟩, ⟨pyInt t0 + 4, 20.5⟩,
         ⟨pyInt t0 + 5, 20.5⟩, ⟨pyInt t0 + 6, 20.5⟩] := by
  set S : ℤ := pyInt t0 with hS
  have hL : generate [] 10 t0 =
      [⟨S, 20.5⟩, ⟨S + 1, 20.5⟩, ⟨S + 2, 20.5⟩, ⟨S + 3, 20.5⟩, ⟨S + 4, 20.5⟩,
       ⟨S + 5, 20.5⟩, ⟨S + 6, 20.5⟩, ⟨S + 7, 20.5⟩, ⟨S + 8, 20.5⟩, ⟨S + 9, 20.5⟩] := by
    rw [generate, genPoints_eq h, List.nil_append, ← hS]
    simp [List.range_succ]
  have hbounds : ∀ p : StoredPoint,
      betweenPred ((S : ℚ) + 3) ((S : ℚ) + 6) p
        = decide (S + 3 ≤ p.time ∧ p.time ≤ S + 6) := by
    intro p
    have h3 : (S : ℚ) + 3 = ((S + 3 : ℤ) : ℚ) := by push_cast; ring
    have h6 : (S : ℚ) + 6 = ((S + 6 : ℤ) : ℚ) := by push_cast; ring
    rw [h3, h6, betweenPred_intCast]
  have hsel : (generate [] 10 t0).filter
      (betweenPred ((S : ℚ) + 3) ((S : ℚ) + 6))
      = [⟨S + 3, 20.5⟩, ⟨S + 4, 20.5⟩, ⟨S + 5, 20.5⟩, ⟨S + 6, 20.5⟩] := by
    rw [hL]
    simp only [List.filter, hbounds, decide_eq_true_eq]
    norm_num
  have hfirst : queryFirst (generate [] 10 t0) = some ⟨S, 20.5⟩ := by
    rw [hL]
    rfl
  have hlast : queryLast (generate [] 10 t0) = some ⟨S + 9, 20.5⟩ := by
    rw [hL, queryLast_of_chain_lt]
    · rfl
    · simp [List.chain'_cons]
  refine ⟨?_, hsel⟩
  rw [query_eq _ _ _ hfirst hlast]
  have hdur : ((⟨S + 9, 20.5⟩ : StoredPoint).time : ℚ)
      - ((⟨S, 20.5⟩ : StoredPoint).time : ℚ) = 9 := by
    push_cast
    ring
  have hlo : ((⟨S, 20.5⟩ : StoredPoint).time : ℚ)
      + (((⟨S + 9, 20.5⟩ : StoredPoint).time : ℚ)
        - ((⟨S, 20.5⟩ : StoredPoint).time : ℚ)) / 3 = (S : ℚ) + 3 := by
    push_cast
    ring
  have hhi : ((⟨S + 9, 20.5⟩ : StoredPoint).time : ℚ)
      - (((⟨S + 9, 20.5⟩ : StoredPoint).time : ℚ)
        - ((⟨S, 20.5⟩ : StoredPoint).time : ℚ)) / 3 = (S : ℚ) + 6 := by
    push_cast
    ring
  rw [hlo, hhi, hdur, hsel, hL]
  rfl

/-- Witness for C3 at `t0 = 3/2`. -/
theorem generate_ten_query_scenario_witness :
    (0 : ℚ) ≤ 3 / 2 ∧
    (query (generate [] 10 (3 / 2)) = Except.ok
      { first := ⟨pyInt (3 / 2), 20.5⟩, last := ⟨pyInt (3 / 2) + 9, 20.5⟩,
        duration := 9, lo := (pyInt (3 / 2) : ℚ) + 3, hi := (pyInt (3 / 2) : ℚ) + 6,
        count := 10, selectionCount := 4,
        selectionFirst := some ⟨pyInt (3 / 2) + 3, 20.5⟩ } ∧
    (generate [] 10 (3 / 2)).filter
        (betweenPred ((pyInt (3 / 2) : ℚ) + 3) ((pyInt (3 / 2) : ℚ) + 6))
      = [⟨pyInt (3 / 2) + 3, 20.5⟩, ⟨pyInt (3 / 2) + 4, 20.5⟩,
         ⟨pyInt (3 / 2) + 5, 20.5⟩, ⟨pyInt (3 / 2) + 6, 20.5⟩]) :=
  ⟨by norm_num, generate_ten_query_scenario (3 / 2) (by norm_num)⟩

end SqliteTs
